import Mathlib

/-!
Verification of the page-speed-social-share repository.

This file gives a shallow embedding of the core logic of the repository:

- the image acquisition pipeline of src/src/hooks/useMobileShare.tsx
  (fetchBlob, urlToBase64, dataURLtoFile),
- the image conversion effect of the useMobileShare hook (keying on the
  comma-joined imageUrls, the cancellation flag, the filter of failed
  conversions),
- the share function of the hook (tiered native share with file
  attachments, capability queries, abort handling),
- the affordance selection of src/src/core/social-share.tsx
  (renderSocialButtons / showOnlyNativeButton).

Browser primitives (fetch, FileReader, navigator.share, navigator.canShare)
are modeled as explicit environments of functions, so every source branch
is represented and every theorem quantifies over the environment.
-/

/-! ## Browser environment model -/

/-- A binary blob as returned by response.blob(); only the byte content is
relevant to the source logic (the source reads blob.size). -/
structure Blob where
  bytes : List Nat
deriving DecidableEq

/-- blob.size in the browser: the number of bytes. -/
def Blob.size (b : Blob) : Nat := b.bytes.length

/-- An error thrown inside fetchBlob: either the explicit
Error("Failed to fetch " ++ url) thrown on a non-ok proxy response, or a
rejection of the fetch call itself (network failure, CORS, etc). -/
inductive FetchErr where
  | failedToFetch (url : String)
  | netError (msg : String)
deriving DecidableEq

/-- A resolved fetch response: the ok flag and the blob that
response.blob() yields. -/
structure Response where
  ok : Bool
  blob : Blob
deriving DecidableEq

/-- A record of one network fetch performed by fetchBlob: the proxy POST,
the direct no-cors fetch, or the plain last-resort fetch. -/
inductive FetchCall where
  | proxyPost (url : String)
  | directNoCors (url : String)
  | plain (url : String)
deriving DecidableEq

/-- The browser environment consumed by the pipeline: the three fetch
shapes that appear in fetchBlob, plus the FileReader readAsDataURL step
used by urlToBase64 (none models the reader error event, which the source
maps to the empty string). -/
structure FetchEnv where
  proxy : String → Except FetchErr Response
  direct : String → Except FetchErr Response
  plain : String → Except FetchErr Response
  reader : Blob → Option String

/-- Models the JavaScript String.prototype.startsWith test on the
underlying character sequence. -/
def strStartsWith (s p : String) : Bool := p.data.isPrefixOf s.data

/-- The allow-listed S3 bucket host hardcoded in fetchBlob
(src/src/hooks/useMobileShare.tsx line 11). -/
def allowedS3Host : String := "https://toastability-production.s3.amazonaws.com"

/-- isAllowedS3Url from fetchBlob: url.startsWith(allowed host). -/
def isAllowedS3Url (url : String) : Bool := strStartsWith url allowedS3Host

/-! ## fetchBlob (src/src/hooks/useMobileShare.tsx lines 7-46) -/

/-- The first tier of fetchBlob, before the catch clause: for allow-listed
S3 urls, the proxy POST (throwing Failed-to-fetch on a non-ok response);
otherwise the direct no-cors fetch of the url. -/
def primaryFetch (env : FetchEnv) (url : String) : Except FetchErr Blob :=
  if isAllowedS3Url url then
    match env.proxy url with
    | .error e => .error e
    | .ok r => if r.ok then .ok r.blob else .error (.failedToFetch url)
  else
    match env.direct url with
    | .error e => .error e
    | .ok r => .ok r.blob

/-- fetchBlob together with the trace of network fetches it performs.
The primary fetch always happens (proxy POST or direct no-cors fetch);
on an exception the plain fallback fetch of the url is attempted, and if
that also throws, the original error is rethrown (the source catch clause
rethrows the outer error variable, not the fallback error). -/
def fetchBlobT (env : FetchEnv) (url : String) :
    Except FetchErr Blob × List FetchCall :=
  let first : FetchCall :=
    if isAllowedS3Url url then .proxyPost url else .directNoCors url
  match primaryFetch env url with
  | .ok b => (.ok b, [first])
  | .error e =>
    match env.plain url with
    | .ok r => (.ok r.blob, [first, .plain url])
    | .error _ => (.error e, [first, .plain url])

/-- The value fetchBlob resolves with (or the error it rejects with). -/
def fetchBlob (env : FetchEnv) (url : String) : Except FetchErr Blob :=
  (fetchBlobT env url).1

/-- The network fetches performed by one fetchBlob call. -/
def fetchCalls (env : FetchEnv) (url : String) : List FetchCall :=
  (fetchBlobT env url).2

/-! ## urlToBase64 (src/src/hooks/useMobileShare.tsx lines 49-65) -/

/-- urlToBase64: fetch the blob; a zero-byte blob resolves to the empty
string; the FileReader result is returned on success and the empty string
on a reader error; any thrown error is swallowed into the empty string. -/
def urlToBase64 (env : FetchEnv) (url : String) : String :=
  match fetchBlob env url with
  | .error _ => ""
  | .ok b =>
    if b.size = 0 then ""
    else
      match env.reader b with
      | some s => s
      | none => ""

/-! ## The comma join/split key of the conversion effect -/

/-- Models the JavaScript Array.prototype.join(",") used to build
imageUrlsKey (src/src/hooks/useMobileShare.tsx line 98). -/
def joinComma : List String → String
  | [] => ""
  | [s] => s
  | s :: rest => s ++ "," ++ joinComma rest

/-- Character-level worker for the JavaScript String.prototype.split(",")
semantics: splitting the empty text yields one empty field, and every
comma opens a new field. -/
def splitCommaChars : List Char → List (List Char)
  | [] => [[]]
  | c :: rest =>
    if c = ',' then [] :: splitCommaChars rest
    else
      match splitCommaChars rest with
      | [] => [[c]]
      | h :: t => (c :: h) :: t

/-- Models the JavaScript String.prototype.split(",") used on
imageUrlsKey (src/src/hooks/useMobileShare.tsx line 113). -/
def splitComma (s : String) : List String :=
  (splitCommaChars s.data).map String.mk

/-- imageUrlsKey from the hook: params.imageUrls joined with a comma, with
the empty string for an absent list. -/
def imageUrlsKey (imageUrls : Option (List String)) : String :=
  match imageUrls with
  | some l => joinComma l
  | none => ""

/-! ## The conversion effect (src/src/hooks/useMobileShare.tsx 101-133) -/

/-- The inner convertImages closure: convert every url of the list and
keep only the truthy (nonempty) results, in order. -/
def convertImages (env : FetchEnv) (urls : List String) : List String :=
  (urls.map (urlToBase64 env)).filter (fun s => s != "")

/-- The network fetches performed when converting a list of urls. -/
def convertCalls (env : FetchEnv) (urls : List String) : List FetchCall :=
  (urls.map (fetchCalls env)).flatten

/-- The list of urls the conversion effect actually passes to urlToBase64:
empty when attachments are disabled or when the key is empty (both early
returns clear the state without converting), otherwise the re-split of the
comma-joined key. -/
def effectConvertedUrls (attach : Bool) (imageUrls : Option (List String)) :
    List String :=
  if !attach then []
  else if imageUrlsKey imageUrls = "" then []
  else splitComma (imageUrlsKey imageUrls)

/-- The settled base64Images state produced by one run of the conversion
effect: the two early returns set the empty list, and otherwise the effect
commits the filtered conversions of the re-split key. -/
def convertEffectImages (env : FetchEnv) (attach : Bool)
    (imageUrls : Option (List String)) : List String :=
  if !attach then []
  else if imageUrlsKey imageUrls = "" then []
  else convertImages env (splitComma (imageUrlsKey imageUrls))

/-- The network fetches performed by one run of the conversion effect. -/
def convertEffectCalls (env : FetchEnv) (attach : Bool)
    (imageUrls : Option (List String)) : List FetchCall :=
  convertCalls env (effectConvertedUrls attach imageUrls)

/-! ## dataURLtoFile (src/src/hooks/useMobileShare.tsx lines 68-88) -/

/-- Models the lazy regex match /:(.*?);/ applied to the data-url header:
the text strictly between the first colon and the first semicolon after
it, or none when no such pair exists. -/
def extractMime (s : String) : Option String :=
  match s.data.dropWhile (fun c => c != ':') with
  | [] => none
  | _ :: rest =>
    let m := rest.takeWhile (fun c => c != ';')
    if m.length < rest.length then some (String.mk m) else none

/-- The value of one base64 alphabet character, none for an invalid
character. -/
def b64Val (c : Char) : Option Nat :=
  if 'A' ≤ c ∧ c ≤ 'Z' then some (c.toNat - 65)
  else if 'a' ≤ c ∧ c ≤ 'z' then some (c.toNat - 97 + 26)
  else if '0' ≤ c ∧ c ≤ '9' then some (c.toNat - 48 + 52)
  else if c = '+' then some 62
  else if c = '/' then some 63
  else none

/-- Base64 decoding of a character sequence in groups of four, with
trailing = padding; none models the InvalidCharacterError thrown by
window.atob on malformed input. -/
def atobChars : List Char → Option (List Nat)
  | [] => some []
  | c1 :: c2 :: c3 :: c4 :: rest => do
    let v1 ← b64Val c1
    let v2 ← b64Val c2
    if c3 = '=' then
      if c4 = '=' ∧ rest = [] then pure [v1 * 4 + v2 / 16] else none
    else do
      let v3 ← b64Val c3
      if c4 = '=' then
        if rest = [] then pure [v1 * 4 + v2 / 16, v2 % 16 * 16 + v3 / 4]
        else none
      else do
        let v4 ← b64Val c4
        let tail ← atobChars rest
        pure ([v1 * 4 + v2 / 16, v2 % 16 * 16 + v3 / 4, v3 % 4 * 64 + v4]
          ++ tail)
  | _ => none

/-- Models window.atob: the byte values of the decoded binary text. -/
def atob (s : String) : Option (List Nat) := atobChars s.data

/-- The platform File object built by dataURLtoFile: decoded bytes, the
parsed MIME type, and the synthetic filename image.jpg. -/
structure JSFile where
  bytes : List Nat
  mime : String
  fname : String
deriving DecidableEq

/-- dataURLtoFile: undefined for a falsy input; split on commas; undefined
when no MIME type parses from the header (the source (!mime) test also
rejects an empty match); undefined when atob throws (including the case
of a missing base64 part, where atob receives undefined); otherwise the
File with the decoded bytes. -/
def dataURLtoFile (dataurl : String) : Option JSFile :=
  if dataurl = "" then none
  else
    match splitComma dataurl with
    | [] => none
    | a0 :: rest =>
      let mime := (extractMime a0).getD ""
      if mime = "" then none
      else
        match rest.head? with
        | none => none
        | some b =>
          match atob b with
          | none => none
          | some bs => some ⟨bs, mime, "image.jpg"⟩

/-! ## The share function (src/src/hooks/useMobileShare.tsx 145-200) -/

/-- A Web Share API payload: title, optional url, optional files. -/
structure ShareData where
  title : String
  url : Option String
  files : Option (List JSFile)
deriving DecidableEq

/-- A JavaScript error value as observed by the catch clause of share:
its name and its (possibly absent) message. -/
structure JSError where
  name : String
  message : Option String
deriving DecidableEq

/-- The navigator share surface: canShare and share may each be absent;
share either resolves (none) or rejects with an error. -/
structure Navigator where
  canShareFn : Option (ShareData → Bool)
  shareFn : Option (ShareData → Option JSError)

/-- ShareParams from src/src/types/social-share.ts. -/
structure ShareParams where
  url : Option String
  title : String
  imageUrls : Option (List String)
  images : Option (List String)
  attachImages : Option Bool

/-- params.attachImages ?? true (src/src/hooks/useMobileShare.tsx 94). -/
def attachmentsEnabled (p : ShareParams) : Bool := p.attachImages.getD true

/-- The base payload built at the top of share: title, and url only when
present; never a files field. -/
def buildShareData (p : ShareParams) : ShareData :=
  { title := p.title, url := p.url, files := none }

/-- The files list built inside share from the converted base64 images:
each data: string through dataURLtoFile, everything else null, with the
falsy entries filtered out. -/
def shareFiles (base64Images : List String) : List JSFile :=
  (base64Images.map (fun image =>
    if strStartsWith image "data:" then dataURLtoFile image else none)
  ).filterMap id

/-- The source test navigator.canShare && navigator.canShare(d): false
when canShare is absent. -/
def navCanShare (nav : Navigator) (d : ShareData) : Bool :=
  match nav.canShareFn with
  | some q => q d
  | none => false

/-- One await navigator.share(d): the recorded invocation and the
rejection if any; calling an absent share throws a TypeError with no
invocation. -/
def navShareInvoke (nav : Navigator) (d : ShareData) :
    List ShareData × Option JSError :=
  match nav.shareFn with
  | some f => ([d], f d)
  | none => ([], some ⟨"TypeError", some "navigator.share is not a function"⟩)

/-- The try-block of share: the navigator.share invocations it performs
(in order) and the error it throws, if any. The file tier is attempted
only when attachments are enabled, the converted list is nonempty, the
built files list is nonempty and the capability query accepts the payload
with files; a capability refusal falls through to the tier without files;
an absent canShare falls through to the bare share invocation; a wholly
absent share surface throws the unsupported Error. -/
def shareAttempt (nav : Navigator) (p : ShareParams)
    (base64Images : List String) : List ShareData × Option JSError :=
  let shareData := buildShareData p
  let fileOutcome : Option (List ShareData × Option JSError) :=
    if attachmentsEnabled p ∧ 0 < base64Images.length then
      let files := shareFiles base64Images
      if 0 < files.length then
        let withFiles : ShareData := { shareData with files := some files }
        if navCanShare nav withFiles then some (navShareInvoke nav withFiles)
        else none
      else none
    else none
  match fileOutcome with
  | some r => r
  | none =>
    if navCanShare nav shareData then navShareInvoke nav shareData
    else
      match nav.shareFn with
      | some f => ([shareData], f shareData)
      | none =>
        ([], some ⟨"Error",
          some "Sharing this content is not supported on this device."⟩)

/-- The observable outcome of one share() call: the payloads passed to
navigator.share, and the message written to the error state (none when
setError was not called). -/
structure ShareRun where
  invoked : List ShareData
  errorSet : Option String
deriving DecidableEq

/-- share() including its catch clause: an AbortError rejection is
swallowed silently, any other thrown error writes its message (or the
fallback text) to the error state; the promise always resolves. -/
def runShare (nav : Navigator) (p : ShareParams)
    (base64Images : List String) : ShareRun :=
  match shareAttempt nav p base64Images with
  | (inv, none) => ⟨inv, none⟩
  | (inv, some e) =>
    if e.name = "AbortError" then ⟨inv, none⟩
    else ⟨inv, some (e.message.getD "Share failed")⟩

/-- The hook-level share: the share closure applied to the settled state
of the conversion effect. The converted state never depends on
params.images, which the current hook does not read. -/
def hookShare (env : FetchEnv) (nav : Navigator) (p : ShareParams) :
    ShareRun :=
  runShare nav p (convertEffectImages env (attachmentsEnabled p) p.imageUrls)

/-! ## Temporal model of the conversion effect

The effect of src/src/hooks/useMobileShare.tsx lines 101-133 is modeled as
a transition system. An inputsChange event is one run of the effect body
after React executed the cleanup of the superseded run (which sets that
run its cancelled flag), so exactly the latest started conversion is
uncancelled; a resolveRun event is the resolution of the Promise.all of
one started conversion, which commits its filtered results only when its
cancelled flag is still false. The catch branch of the effect is
unreachable because urlToBase64 never rejects. -/

/-- An event in the life of the hook: the inputs change (one effect run
after the cleanup of the previous run), or the conversion started by run i
resolves. -/
inductive HookEvent where
  | inputsChange (attach : Bool) (imageUrls : Option (List String))
  | resolveRun (i : Nat)

/-- The state of the hook between events: every conversion run started so
far (run i is cancelled unless current = some i), and the base64Images
state. -/
structure HookState where
  runs : List (List String)
  current : Option Nat
  base64Images : List String
deriving DecidableEq

/-- The initial hook state: nothing started, empty converted images. -/
def initHookState : HookState := ⟨[], none, []⟩

/-- One event: an effect run first cancels the previous run (cleanup),
then either clears the state synchronously (attachments disabled or empty
key) or starts a new conversion of the re-split key; a resolution commits
its results only when its run is still the current one. -/
def stepEvent (env : FetchEnv) (s : HookState) : HookEvent → HookState
  | .inputsChange attach imageUrls =>
    if !attach then ⟨s.runs, none, []⟩
    else if imageUrlsKey imageUrls = "" then ⟨s.runs, none, []⟩
    else
      ⟨s.runs ++ [splitComma (imageUrlsKey imageUrls)],
        some s.runs.length, s.base64Images⟩
  | .resolveRun i =>
    if s.current = some i then
      match s.runs[i]? with
      | some urls => ⟨s.runs, s.current, convertImages env urls⟩
      | none => s
    else s

/-- The state after a sequence of events. -/
def runEvents (env : FetchEnv) : HookState → List HookEvent → HookState
  | s, [] => s
  | s, e :: es => runEvents env (stepEvent env s e) es

/-! ## Affordance selection (src/src/core/social-share.tsx) -/

/-- The screen classes reported by useScreen. -/
inductive ScreenType where
  | MOBILE | TABLET | DESKTOP | OTHER
deriving DecidableEq, BEq

/-- One user-facing share affordance rendered by the component. -/
inductive Affordance where
  | x | facebook | pinterest | linkedin | mail | nativeShare
deriving DecidableEq

/-- The affordances rendered by the standard variant of SocialShare, in
order (lines 477-480 and 637-730 of src/src/core/social-share.tsx): with
touch on a mobile or tablet screen and native share available, only the
native button; otherwise X and Facebook, Pinterest only when at least one
image url is present, LinkedIn, Email, and a trailing native share button
when native share is available and the device is not touch. -/
def renderedAffordances (isTouch : Bool) (screenType : ScreenType)
    (canShare : Bool) (imgUrls : Option (List String)) : List Affordance :=
  let isMobileOrTablet :=
    screenType == ScreenType.MOBILE || screenType == ScreenType.TABLET
  let showOnlyNativeButton := isTouch && isMobileOrTablet && canShare
  if showOnlyNativeButton then [.nativeShare]
  else
    [.x, .facebook]
      ++ (if 0 < (imgUrls.getD []).length then [.pinterest] else [])
      ++ [.linkedin, .mail]
      ++ (if canShare && !isTouch then [.nativeShare] else [])

/-! ## Concrete fixtures used by witnesses -/

/-- An environment in which every fetch rejects. -/
def envOffline : FetchEnv :=
  ⟨fun _ => .error (.netError "offline"),
   fun _ => .error (.netError "offline"),
   fun _ => .error (.netError "offline"),
   fun _ => none⟩

/-- An environment whose fetches resolve with a zero-byte blob, as an
opaque no-cors response does. -/
def envEmptyBlob : FetchEnv :=
  ⟨fun _ => .ok ⟨true, ⟨[]⟩⟩,
   fun _ => .ok ⟨true, ⟨[]⟩⟩,
   fun _ => .ok ⟨true, ⟨[]⟩⟩,
   fun _ => none⟩

/-- An environment whose primary fetch and fallback fetch reject with
distinct errors. -/
def envSplitErrors : FetchEnv :=
  ⟨fun _ => .error (.netError "primary failure"),
   fun _ => .error (.netError "primary failure"),
   fun _ => .error (.netError "fallback failure"),
   fun _ => none⟩

/-- An environment where the url B yields an empty blob (conversion
fails) while other urls convert to distinguishable data urls. -/
def envABC : FetchEnv :=
  ⟨fun _ => .error (.netError "unused"),
   fun u =>
     if u = "B" then .ok ⟨true, ⟨[]⟩⟩
     else if u = "A" then .ok ⟨true, ⟨[1]⟩⟩
     else .ok ⟨true, ⟨[2]⟩⟩,
   fun _ => .error (.netError "unused"),
   fun b => if b.bytes = [1] then some "data:a" else some "data:c"⟩

/-- An environment where every url converts successfully to a fixed data
url. -/
def envConst : FetchEnv :=
  ⟨fun _ => .ok ⟨true, ⟨[7]⟩⟩,
   fun _ => .ok ⟨true, ⟨[7]⟩⟩,
   fun _ => .ok ⟨true, ⟨[7]⟩⟩,
   fun _ => some "data:image/jpeg;base64,AAAA"⟩

/-- A navigator whose capability query accepts everything and whose share
resolves. -/
def navResolve : Navigator := ⟨some (fun _ => true), some (fun _ => none)⟩

/-- A navigator whose share rejects with an abort-style error (the user
dismissed the share sheet). -/
def navAbort : Navigator :=
  ⟨some (fun _ => true),
   some (fun _ => some ⟨"AbortError", some "user dismissed the sheet"⟩)⟩

/-- A navigator whose capability query rejects any payload that carries
files but accepts payloads without files; share resolves. -/
def navNoFiles : Navigator :=
  ⟨some (fun d => d.files.isNone), some (fun _ => none)⟩

/-- A well-formed base64 jpeg data url used as a concrete attachment. -/
def dataUrlA : String := "data:image/jpeg;base64,AAAA"

/-- Basic share parameters: a title and a url, nothing else. -/
def paramsBasic : ShareParams :=
  ⟨some "https://example.com/post", "Hello", none, none, none⟩

/-- Parameters with attachments disabled but a nonempty imageUrls. -/
def paramsNoAttach : ShareParams :=
  ⟨none, "Hello", some ["https://example.com/a.png"], none, some false⟩

/-- Parameters with empty imageUrls and a nonempty preconverted images
list. -/
def paramsImagesOnly : ShareParams :=
  ⟨none, "Hello", none, some ["data:image/jpeg;base64,AAAA"], some true⟩

/-! ## Helper lemmas about the comma split -/

/-- The append of two strings carries the append of their character
data. -/
theorem strData_append (s t : String) : (s ++ t).data = s.data ++ t.data := by
  cases s; cases t; rfl

/-- Splitting never yields an empty list of fields. -/
theorem splitCommaChars_ne_nil (cs : List Char) : splitCommaChars cs ≠ [] := by
  induction cs with
  | nil => simp [splitCommaChars]
  | cons c rest ih =>
    simp only [splitCommaChars]
    by_cases h : c = ','
    · simp [h]
    · rw [if_neg h]
      cases hr : splitCommaChars rest with
      | nil => simp
      | cons a t => simp

/-- No field produced by the split contains a comma. -/
theorem mem_splitCommaChars_no_comma (cs : List Char) :
    ∀ a ∈ splitCommaChars cs, ',' ∉ a := by
  induction cs with
  | nil =>
    intro a ha
    simp only [splitCommaChars, List.mem_singleton] at ha
    subst ha
    simp
  | cons c rest ih =>
    intro a ha
    simp only [splitCommaChars] at ha
    by_cases h : c = ','
    · rw [if_pos h] at ha
      rcases List.mem_cons.mp ha with h1 | h2
      · subst h1; simp
      · exact ih a h2
    · rw [if_neg h] at ha
      cases hr : splitCommaChars rest with
      | nil => exact absurd hr (splitCommaChars_ne_nil rest)
      | cons b t =>
        rw [hr] at ha
        rcases List.mem_cons.mp ha with h1 | h2
        · subst h1
          intro hmem
          rcases List.mem_cons.mp hmem with hc | hb
          · exact h hc.symm
          · exact ih b (hr ▸ List.mem_cons_self b t) hb
        · exact ih a (hr ▸ List.mem_cons_of_mem b h2)

/-- A comma-free text splits into the single field it is. -/
theorem splitCommaChars_of_no_comma (cs : List Char) (h : ',' ∉ cs) :
    splitCommaChars cs = [cs] := by
  induction cs with
  | nil => rfl
  | cons c rest ih =>
    have hc : ¬c = ',' := fun e => h (e ▸ List.mem_cons_self c rest)
    simp only [splitCommaChars]
    rw [if_neg hc, ih (fun m => h (List.mem_cons_of_mem c m))]

/-- Splitting a text of the shape a ++ comma ++ b, with a comma-free,
peels off the field a. -/
theorem splitCommaChars_append (a b : List Char) (h : ',' ∉ a) :
    splitCommaChars (a ++ ',' :: b) = a :: splitCommaChars b := by
  induction a with
  | nil => simp [splitCommaChars]
  | cons c rest ih =>
    have hc : ¬c = ',' := fun e => h (e ▸ List.mem_cons_self c rest)
    simp only [List.cons_append, splitCommaChars, List.append_eq]
    rw [if_neg hc, ih (fun m => h (List.mem_cons_of_mem c m))]

/-- The split is a left inverse of the comma join on nonempty lists of
comma-free strings. -/
theorem splitComma_joinComma (l : List String) (hne : l ≠ [])
    (h : ∀ u ∈ l, ',' ∉ u.data) : splitComma (joinComma l) = l := by
  induction l with
  | nil => exact absurd rfl hne
  | cons s rest ih =>
    cases rest with
    | nil =>
      simp only [joinComma, splitComma]
      rw [splitCommaChars_of_no_comma s.data (h s (List.mem_singleton.mpr rfl))]
      rfl
    | cons r rs =>
      have hd : (s ++ "," ++ joinComma (r :: rs)).data
          = s.data ++ ',' :: (joinComma (r :: rs)).data := by
        rw [strData_append, strData_append, List.append_assoc]
        rfl
      simp only [joinComma, splitComma]
      rw [hd, splitCommaChars_append _ _ (h s (List.mem_cons_self s _))]
      have ihr : splitComma (joinComma (r :: rs)) = r :: rs :=
        ih (by simp) (fun u hu => h u (List.mem_cons_of_mem s hu))
      simp only [splitComma] at ihr
      simp [List.map_cons, ihr]

/-! ## Claim theorems -/

/-- Claim C4: for every imageUrls list the converted attachment sequence
is the caller-supplied url order with failed (empty-string) conversions
omitted — an order-preserving filter, never a reordering by completion
time; concretely, with A and C converting and B failing, the result is
exactly the conversions of A then C with no placeholder for B. -/
theorem claim_C4_order_preserved (env : FetchEnv) (urls : List String) :
    convertImages env urls
      = (urls.filter (fun u => urlToBase64 env u != "")).map
          (urlToBase64 env) ∧
    convertImages envABC ["A", "B", "C"] = ["data:a", "data:c"] := by
  constructor
  · induction urls with
    | nil => rfl
    | cons u rest ih =>
      simp only [convertImages, List.map_cons, List.filter_cons] at ih ⊢
      by_cases h : (urlToBase64 env u != "") = true
      · simp [h, ih]
      · simp [h, ih]
  · decide

/-- Claim C6 counterexample: at the inputs of the claim (not touch,
desktop, native share available, no images) the email affordance is
rendered, so the rendered set is not the claimed one that excludes
email. -/
theorem claim_C6_counterexample :
    Affordance.mail ∈ renderedAffordances false ScreenType.DESKTOP true none
    ∧ renderedAffordances false ScreenType.DESKTOP true none ≠
      [Affordance.x, Affordance.facebook, Affordance.linkedin,
        Affordance.nativeShare] := by
  decide

/-- Claim C6 amended: with no touch, desktop screen, native share
available and no images, the component renders X, Facebook, LinkedIn and
Email (Pinterest is omitted for lack of an image; email is always
rendered, there is no per-platform configuration), followed by a trailing
native-share affordance. -/
theorem claim_C6_amended :
    renderedAffordances false ScreenType.DESKTOP true none =
      [Affordance.x, Affordance.facebook, Affordance.linkedin,
        Affordance.mail, Affordance.nativeShare] := by
  decide

/-- Claim C7: urlToBase64 is infallible — a rejected fetch yields the
empty string, a zero-byte blob yields the empty string (never a malformed
data url), a reader error yields the empty string, and the empty string
is excluded from the converted attachment sequence. -/
theorem claim_C7_to_base64_infallible (env : FetchEnv) (url : String)
    (urls : List String) :
    ((∃ e, fetchBlob env url = .error e) → urlToBase64 env url = "") ∧
    (∀ b, fetchBlob env url = .ok b → b.size = 0 →
      urlToBase64 env url = "") ∧
    (∀ b, fetchBlob env url = .ok b → env.reader b = none →
      urlToBase64 env url = "") ∧
    (∀ s ∈ convertImages env urls, s ≠ "") := by
  refine ⟨?_, ?_, ?_, ?_⟩
  · rintro ⟨e, he⟩
    simp [urlToBase64, he]
  · intro b hb h0
    simp [urlToBase64, hb, h0]
  · intro b hb hr
    by_cases h0 : b.size = 0
    · simp [urlToBase64, hb, h0]
    · simp [urlToBase64, hb, h0, hr]
  · intro s hs
    have hm := List.mem_filter.mp hs
    simpa using hm.2

/-- Claim C7 witness: in an environment resolving with a zero-byte blob
(an opaque no-cors response), the conversion of a concrete url is the
empty string. -/
theorem claim_C7_witness :
    urlToBase64 envEmptyBlob "https://other.example/a.png" = "" :=
  (claim_C7_to_base64_infallible envEmptyBlob "https://other.example/a.png"
    []).2.1 ⟨[]⟩ rfl rfl

/-- Claim C8: when the first tier of fetchBlob throws, the plain fallback
fetch of the url is attempted, and when that fallback also throws, the
error propagated to the caller is the original first-tier error, not the
fallback error. -/
theorem claim_C8_original_error_propagated (env : FetchEnv) (url : String)
    (e : FetchErr) (hp : primaryFetch env url = .error e) :
    FetchCall.plain url ∈ fetchCalls env url ∧
    (∀ e2, env.plain url = .error e2 → fetchBlob env url = .error e) := by
  constructor
  · simp only [fetchCalls, fetchBlobT, hp]
    cases hq : env.plain url <;> simp [hq]
  · intro e2 h2
    simp [fetchBlob, fetchBlobT, hp, h2]

/-- Claim C8 witness: with the primary and fallback fetch failing with
distinct errors, the fallback is attempted and the original error is the
outcome. -/
theorem claim_C8_witness :
    FetchCall.plain "https://other.example/a.png"
        ∈ fetchCalls envSplitErrors "https://other.example/a.png" ∧
    fetchBlob envSplitErrors "https://other.example/a.png"
        = .error (.netError "primary failure") := by
  have h := claim_C8_original_error_propagated envSplitErrors
    "https://other.example/a.png" (.netError "primary failure") rfl
  exact ⟨h.1, h.2 (.netError "fallback failure") rfl⟩

/-- Claim C10 counterexample: the single empty url contains no comma, yet
the effect converts nothing for it (its joined key is empty and the
effect takes the clearing early return), so the converted url list is not
the caller-supplied list. -/
theorem claim_C10_counterexample :
    (∀ u ∈ ([""] : List String), ',' ∉ u.data) ∧
    effectConvertedUrls true (some [""]) ≠ [""] := by
  decide

/-- Claim C10 amended: when no url contains a comma and the joined key is
nonempty (which fails only for the empty list, where nothing is converted
anyway, and for the single empty url), the effect converts exactly the
caller-supplied urls in order; and every url the effect converts is
comma-free, so a url containing a comma is never fetched as supplied. -/
theorem claim_C10_key_roundtrip :
    (∀ l : List String, (∀ u ∈ l, ',' ∉ u.data) →
      imageUrlsKey (some l) ≠ "" → effectConvertedUrls true (some l) = l) ∧
    (∀ (iu : Option (List String)) (u : String),
      u ∈ effectConvertedUrls true iu → ',' ∉ u.data) := by
  constructor
  · intro l hfree hkey
    have hne : l ≠ [] := by
      intro h0
      subst h0
      exact hkey rfl
    simp only [effectConvertedUrls, Bool.not_true, if_neg hkey]
    simpa [imageUrlsKey] using splitComma_joinComma l hne hfree
  · intro iu u hu
    have hu2 : u ∈ splitComma (imageUrlsKey iu) := by
      by_cases hkey : imageUrlsKey iu = ""
      · simp [effectConvertedUrls, hkey] at hu
      · simpa [effectConvertedUrls, hkey] using hu
    simp only [splitComma] at hu2
    rcases List.mem_map.mp hu2 with ⟨a, ha, hau⟩
    have hdata : u.data = a := by rw [← hau]
    intro hc
    exact mem_splitCommaChars_no_comma _ a ha (hdata ▸ hc)

/-- Claim C10 witness: a concrete comma-free list round-trips through the
key, and a url with an embedded comma is never among the converted
urls. -/
theorem claim_C10_witness :
    effectConvertedUrls true (some ["a", "b"]) = ["a", "b"] ∧
    "a,b" ∉ effectConvertedUrls true (some ["a,b"]) := by
  constructor
  · exact claim_C10_key_roundtrip.1 ["a", "b"] (by decide) (by decide)
  · intro hmem
    exact claim_C10_key_roundtrip.2 (some ["a,b"]) "a,b" hmem (by decide)

/-- The catch clause of share never changes which payloads were passed to
navigator.share. -/
theorem runShare_invoked_eq (nav : Navigator) (p : ShareParams)
    (imgs : List String) :
    (runShare nav p imgs).invoked = (shareAttempt nav p imgs).1 := by
  unfold runShare
  rcases hs : shareAttempt nav p imgs with ⟨inv, err⟩
  cases err with
  | none => rfl
  | some e =>
    by_cases he : e.name = "AbortError" <;> simp [he]

/-- Every payload share passes to navigator.share when attachments are
disabled is the base payload, which carries no files field. -/
theorem shareAttempt_disabled_no_files (nav : Navigator) (p : ShareParams)
    (imgs : List String) (ha : attachmentsEnabled p = false) :
    ∀ d ∈ (shareAttempt nav p imgs).1, d.files = none := by
  intro d hd
  have hcond : ¬(attachmentsEnabled p ∧ 0 < imgs.length) := by
    simp [ha]
  simp only [shareAttempt, if_neg hcond] at hd
  by_cases hb : navCanShare nav (buildShareData p) = true
  · rw [if_pos hb] at hd
    unfold navShareInvoke at hd
    cases hf : nav.shareFn with
    | none => simp [hf] at hd
    | some f =>
      rw [hf] at hd
      simp only [List.mem_singleton] at hd
      subst hd
      rfl
  · rw [if_neg hb] at hd
    cases hf : nav.shareFn with
    | none => simp [hf] at hd
    | some f =>
      rw [hf] at hd
      simp only [List.mem_singleton] at hd
      subst hd
      rfl

/-- Claim C1: when the capability query rejects the payload with files
but accepts the reduced payload (title and url only), share succeeds by
invoking the native share exactly once with the reduced payload, with no
error recorded and no files field in the invoked payload. -/
theorem claim_C1_attachment_fallback (nav : Navigator) (p : ShareParams)
    (imgs : List String) (f : ShareData → Option JSError)
    (hf : nav.shareFn = some f)
    (hfile : navCanShare nav
      { buildShareData p with files := some (shareFiles imgs) } = false)
    (hbase : navCanShare nav (buildShareData p) = true)
    (hres : f (buildShareData p) = none) :
    runShare nav p imgs = ⟨[buildShareData p], none⟩ ∧
    (buildShareData p).files = none := by
  have hattempt : shareAttempt nav p imgs = ([buildShareData p], none) := by
    simp only [shareAttempt]
    by_cases h1 : attachmentsEnabled p ∧ 0 < imgs.length
    · rw [if_pos h1]
      by_cases h2 : 0 < (shareFiles imgs).length
      · rw [if_pos h2, hfile]
        simp [hbase, navShareInvoke, hf, hres]
      · rw [if_neg h2]
        simp [hbase, navShareInvoke, hf, hres]
    · rw [if_neg h1]
      simp [hbase, navShareInvoke, hf, hres]
  refine ⟨?_, rfl⟩
  simp [runShare, hattempt]

/-- Claim C1 witness: with a converted attachment present, a capability
query that rejects file payloads and accepts bare ones, and a resolving
share, the call invokes the reduced payload and records no error; the
prepared files list is nonempty, so the file tier was really refused. -/
theorem claim_C1_witness :
    runShare navNoFiles paramsBasic [dataUrlA]
        = ⟨[buildShareData paramsBasic], none⟩ ∧
    0 < (shareFiles [dataUrlA]).length :=
  ⟨(claim_C1_attachment_fallback navNoFiles paramsBasic [dataUrlA]
      (fun _ => none) rfl (by decide) (by decide) rfl).1,
   by decide⟩

/-- Claim C2: share always resolves; when its body throws an abort-style
error (name AbortError) the error state is left untouched (null), when
the body completes no error is recorded, and any other thrown error sets
the error state to the message carried by the failure (with a fixed
fallback text when the failure carries none). -/
theorem claim_C2_error_policy (nav : Navigator) (p : ShareParams)
    (imgs : List String) :
    ((shareAttempt nav p imgs).2 = none →
      (runShare nav p imgs).errorSet = none) ∧
    (∀ e, (shareAttempt nav p imgs).2 = some e → e.name = "AbortError" →
      (runShare nav p imgs).errorSet = none) ∧
    (∀ e, (shareAttempt nav p imgs).2 = some e → e.name ≠ "AbortError" →
      (runShare nav p imgs).errorSet
        = some (e.message.getD "Share failed")) := by
  refine ⟨?_, ?_, ?_⟩
  · intro h
    rcases hs : shareAttempt nav p imgs with ⟨inv, err⟩
    rw [hs] at h
    simp only at h
    subst h
    simp [runShare, hs]
  · intro e he hn
    rcases hs : shareAttempt nav p imgs with ⟨inv, err⟩
    rw [hs] at he
    simp only at he
    subst he
    simp [runShare, hs, hn]
  · intro e he hn
    rcases hs : shareAttempt nav p imgs with ⟨inv, err⟩
    rw [hs] at he
    simp only at he
    subst he
    simp [runShare, hs, hn]

/-- Claim C2 witness: a share rejecting with an abort-style error leaves
the error state null. -/
theorem claim_C2_witness :
    (runShare navAbort paramsBasic []).errorSet = none :=
  (claim_C2_error_policy navAbort paramsBasic []).2.1
    ⟨"AbortError", some "user dismissed the sheet"⟩ rfl rfl

/-- Claim C9: with attachImages false the conversion effect sets the
converted-images state to the empty sequence, performs no network fetch,
and every payload share passes to the native share invocation carries no
files field, whatever converted images may linger in state. -/
theorem claim_C9_disable_switch (env : FetchEnv) (nav : Navigator)
    (p : ShareParams) (stale : List String)
    (hoff : p.attachImages = some false) :
    convertEffectImages env (attachmentsEnabled p) p.imageUrls = [] ∧
    convertEffectCalls env (attachmentsEnabled p) p.imageUrls = [] ∧
    ∀ d ∈ (runShare nav p stale).invoked, d.files = none := by
  have ha : attachmentsEnabled p = false := by
    simp [attachmentsEnabled, hoff]
  refine ⟨?_, ?_, ?_⟩
  · simp [convertEffectImages, ha]
  · simp [convertEffectCalls, effectConvertedUrls, convertCalls, ha]
  · intro d hd
    rw [runShare_invoked_eq] at hd
    exact shareAttempt_disabled_no_files nav p stale ha d hd

/-- Claim C9 witness: a concrete request with attachments disabled and a
nonempty imageUrls converts nothing, fetches nothing, and shares a
payload without files even when a stale converted image lingers. -/
theorem claim_C9_witness :
    convertEffectImages envOffline (attachmentsEnabled paramsNoAttach)
        paramsNoAttach.imageUrls = [] ∧
    convertEffectCalls envOffline (attachmentsEnabled paramsNoAttach)
        paramsNoAttach.imageUrls = [] ∧
    ∀ d ∈ (runShare navResolve paramsNoAttach [dataUrlA]).invoked,
      d.files = none :=
  claim_C9_disable_switch envOffline navResolve paramsNoAttach [dataUrlA] rfl

/-- Claim C5 evaluated at the failing input: with attachImages true,
imageUrls absent and a nonempty preconverted images list, the conversion
effect leaves the converted state empty and the share invokes the bare
payload without files, although the preconverted entry does build a
file — the current hook never reads params.images, contradicting the
repository documentation of the images parameter. -/
theorem claim_C5_preconverted_ignored :
    convertEffectImages envOffline (attachmentsEnabled paramsImagesOnly)
        paramsImagesOnly.imageUrls = [] ∧
    hookShare envOffline navResolve paramsImagesOnly
        = ⟨[⟨"Hello", none, none⟩], none⟩ ∧
    paramsImagesOnly.images = some [dataUrlA] ∧
    shareFiles [dataUrlA] ≠ [] := by
  refine ⟨rfl, ?_, rfl, by decide⟩
  rfl

/-- Claim C3: when the inputs change from xs to ys while the conversion
for xs is in flight, the superseded conversion never commits — after both
effect runs, resolving the first conversion leaves the state empty, and
in either resolution order the final state is exactly the converted
attachments of ys. -/
theorem claim_C3_stale_guard (env : FetchEnv) (xs ys : List String)
    (hx : imageUrlsKey (some xs) ≠ "") (hy : imageUrlsKey (some ys) ≠ "") :
    (runEvents env initHookState
        [.inputsChange true (some xs), .inputsChange true (some ys),
          .resolveRun 0]).base64Images = [] ∧
    (runEvents env initHookState
        [.inputsChange true (some xs), .inputsChange true (some ys),
          .resolveRun 0, .resolveRun 1]).base64Images
      = convertImages env (splitComma (imageUrlsKey (some ys))) ∧
    (runEvents env initHookState
        [.inputsChange true (some xs), .inputsChange true (some ys),
          .resolveRun 1, .resolveRun 0]).base64Images
      = convertImages env (splitComma (imageUrlsKey (some ys))) := by
  have h1 : stepEvent env initHookState (.inputsChange true (some xs))
      = ⟨[splitComma (imageUrlsKey (some xs))], some 0, []⟩ := by
    simp [stepEvent, initHookState, hx]
  have h2 : stepEvent env
      ⟨[splitComma (imageUrlsKey (some xs))], some 0, []⟩
      (.inputsChange true (some ys))
      = ⟨[splitComma (imageUrlsKey (some xs)),
          splitComma (imageUrlsKey (some ys))], some 1, []⟩ := by
    simp [stepEvent, hy]
  have h30 : stepEvent env
      ⟨[splitComma (imageUrlsKey (some xs)),
        splitComma (imageUrlsKey (some ys))], some 1, []⟩
      (.resolveRun 0)
      = ⟨[splitComma (imageUrlsKey (some xs)),
          splitComma (imageUrlsKey (some ys))], some 1, []⟩ := by
    simp [stepEvent]
  have h31 : stepEvent env
      ⟨[splitComma (imageUrlsKey (some xs)),
        splitComma (imageUrlsKey (some ys))], some 1, []⟩
      (.resolveRun 1)
      = ⟨[splitComma (imageUrlsKey (some xs)),
          splitComma (imageUrlsKey (some ys))], some 1,
          convertImages env (splitComma (imageUrlsKey (some ys)))⟩ := by
    simp [stepEvent]
  have h32 : stepEvent env
      ⟨[splitComma (imageUrlsKey (some xs)),
        splitComma (imageUrlsKey (some ys))], some 1,
        convertImages env (splitComma (imageUrlsKey (some ys)))⟩
      (.resolveRun 0)
      = ⟨[splitComma (imageUrlsKey (some xs)),
          splitComma (imageUrlsKey (some ys))], some 1,
          convertImages env (splitComma (imageUrlsKey (some ys)))⟩ := by
    simp [stepEvent]
  refine ⟨?_, ?_, ?_⟩
  · simp only [runEvents]
    rw [h1, h2, h30]
  · simp only [runEvents]
    rw [h1, h2, h30, h31]
  · simp only [runEvents]
    rw [h1, h2, h31, h32]

/-- Claim C3 witness: with two concrete single-url requests, resolving
the superseded conversion first, the final state is the conversion of the
second request only. -/
theorem claim_C3_witness :
    (runEvents envConst initHookState
        [.inputsChange true (some ["https://a.example/x.png"]),
          .inputsChange true (some ["https://a.example/y.png"]),
          .resolveRun 0, .resolveRun 1]).base64Images
      = convertImages envConst
          (splitComma (imageUrlsKey (some ["https://a.example/y.png"]))) :=
  (claim_C3_stale_guard envConst ["https://a.example/x.png"]
    ["https://a.example/y.png"] (by decide) (by decide)).2.1
